import Mathlib

/-!
Shallow embedding of the core of `power_pulse.py`: the downsample
accumulator, the durable SQLite spill store, the bounded event queue
gateway, the ingestion worker's shutdown drain, the replay cycle and the
sink-adapter failure callback, together with proofs of the specified
properties.
-/

namespace MeterPulse

/-- Configuration constants of `power_pulse.py` (module level). -/
def RAW_MEASUREMENT : String := "PowerPulse"

/-- Downsampled measurement name, `RAW_MEASUREMENT + "_1m"`. -/
def DS_MEASUREMENT : String := "PowerPulse_1m"

/-- Default raw bucket name. -/
def RAW_BUCKET : String := "PowerLogger_raw"

/-- Default downsample bucket name. -/
def DS_BUCKET : String := "PowerLogger_1m"

/-- Window size of the downsample accumulator, seconds. -/
def DS_WINDOW_SECONDS : Int := 60

/-- Grace (jitter) period before a window is considered complete, seconds. -/
def DS_FLUSH_JITTER_SECONDS : Int := 2

/-- Capacity of the bounded in-memory event queue. -/
def EVENT_Q_MAX : Nat := 200000

/-- Batch limit used by the replay worker's dequeue. -/
def REPLAY_BATCH_LINES : Nat := 5000

/-- Escapes a tag value for the line protocol, `lp_escape_tag`. -/
def lp_escape_tag (v : String) : String :=
  ((((v.replace "\\" "\\\\").replace " " "\\ ").replace "," "\\,").replace "=" "\\=")

/-- Serialises one raw pulse event to a line-protocol line, `make_raw_lp`. -/
def make_raw_lp (pulse_type : String) (ts_ns : Int) : String :=
  RAW_MEASUREMENT ++ ",PulseType=" ++ lp_escape_tag pulse_type ++ " Pulse=1i " ++ toString ts_ns

/-- Serialises one aggregate record to a line-protocol line, `make_ds_lp`. -/
def make_ds_lp (pulse_type : String) (window_start_s : Int) (count : Nat) : String :=
  DS_MEASUREMENT ++ ",PulseType=" ++ lp_escape_tag pulse_type ++ ",window=1m PulseCount="
    ++ toString count ++ "i " ++ toString (window_start_s * 1000000000)

/-- An inbound event: category tag plus nanosecond timestamp (queue items). -/
structure Event where
  pulse_type : String
  ts_ns : Int
deriving DecidableEq, Repr

/-- One emitted window aggregate: window start, category and count. -/
structure AggregateRecord where
  window : Int
  category : String
  count : Nat
deriving DecidableEq, Repr

/-- The downsample accumulator `ds_counts`: an association list from window
start to the per-category counts (a `defaultdict` of `defaultdict(int)` in the
source; insertion order of keys is preserved, as in a Python dict). -/
abbrev DsCounts := List (Int × List (String × Nat))

/-- Window start for a nanosecond timestamp:
`(ts_ns // 1_000_000_000) // DS_WINDOW_SECONDS * DS_WINDOW_SECONDS` with Python
floor division. -/
def windowOf (ts_ns : Int) : Int :=
  (ts_ns.fdiv 1000000000).fdiv DS_WINDOW_SECONDS * DS_WINDOW_SECONDS

/-- Increment of the per-category counter inside one window's dict
(`ds_counts[minute_epoch][pulse_type] += 1` on the inner `defaultdict`):
bumps the existing entry or appends a fresh one with count 1. -/
def bumpCat : List (String × Nat) → String → List (String × Nat)
  | [], k => [(k, 1)]
  | (k', v) :: rest, k =>
    if k' = k then (k', v + 1) :: rest else (k', v) :: bumpCat rest k

/-- Increment on the outer `defaultdict`: bumps the window's dict or creates
the window entry if absent. -/
def bumpWindow : DsCounts → Int → String → DsCounts
  | [], w, k => [(w, [(k, 1)])]
  | (w', m) :: rest, w, k =>
    if w' = w then (w', bumpCat m k) :: rest else (w', m) :: bumpWindow rest w k

/-- The accumulator update `record_downsample(pulse_type, ts_ns)`. -/
def record_downsample (ds : DsCounts) (pulse_type : String) (ts_ns : Int) : DsCounts :=
  bumpWindow ds (windowOf ts_ns) pulse_type

/-- The `complete_before` boundary computed by the flush:
`((now_s - DS_FLUSH_JITTER_SECONDS) // DS_WINDOW_SECONDS) * DS_WINDOW_SECONDS`. -/
def completeBefore (now_s : Int) : Int :=
  (now_s - DS_FLUSH_JITTER_SECONDS).fdiv DS_WINDOW_SECONDS * DS_WINDOW_SECONDS

/-- Sorting of the flushed windows by window start, mirroring
`sorted(ds_counts.keys())`. -/
def sortByWindow (l : DsCounts) : DsCounts :=
  List.insertionSort (fun a b => a.1 ≤ b.1) l

/-- Removal of one window key from the accumulator
(`ds_counts.pop(minute_epoch, None)`). -/
def eraseWindow (ds : DsCounts) (w : Int) : DsCounts :=
  ds.filter (fun p => decide (p.1 ≠ w))

/-- The flush `flush_completed_downsample_windows(now_s)`: windows strictly
before `complete_before` are collected in sorted order, removed from the
accumulator, and converted into one `AggregateRecord` per present category;
returns the new accumulator state and the emitted records. -/
def flush_completed_downsample_windows (ds : DsCounts) (now_s : Int) :
    DsCounts × List AggregateRecord :=
  let complete_before := completeBefore now_s
  let to_flush := sortByWindow (ds.filter (fun p => decide (p.1 < complete_before)))
  let ds' := to_flush.foldl (fun acc p => eraseWindow acc p.1) ds
  let out := (to_flush.map (fun p => p.2.map (fun q => AggregateRecord.mk p.1 q.1 q.2))).flatten
  (ds', out)

/-- Lookup of a window's dict in the accumulator. -/
def lookupWin : DsCounts → Int → Option (List (String × Nat))
  | [], _ => none
  | (w', m) :: rest, w => if w' = w then some m else lookupWin rest w

/-- Lookup of a category count inside one window's dict (0 when absent). -/
def lookupCat : List (String × Nat) → String → Nat
  | [], _ => 0
  | (k', v) :: rest, k => if k' = k then v else lookupCat rest k

/-- Count held by the accumulator for a (window, category) key (0 if absent). -/
def dsCount (ds : DsCounts) (w : Int) (cat : String) : Nat :=
  match lookupWin ds w with
  | none => 0
  | some m => lookupCat m cat

example : record_downsample [] "Import" 10000000000 = [(0, [("Import", 1)])] := by decide

example :
    record_downsample (record_downsample [] "Import" 10000000000) "Import" 65000000000
      = [(0, [("Import", 1)]), (60, [("Import", 1)])] := by decide

example :
    flush_completed_downsample_windows
      (record_downsample (record_downsample [] "Import" 10000000000) "Import" 65000000000) 63
      = ([(60, [("Import", 1)])], [⟨0, "Import", 1⟩]) := by decide

/-- One row of the `lp_queue` table of the durable spill store: autoincrement
id, destination bucket and line-protocol payload. -/
structure SpillEntry where
  id : Nat
  bucket : String
  lp : String
deriving DecidableEq, Repr

/-- State of the durable spill store: its rows together with the next
autoincrement id (sqlite `AUTOINCREMENT` hands out strictly increasing ids). -/
structure Store where
  entries : List SpillEntry
  next_id : Nat
deriving DecidableEq, Repr

/-- Rows produced by one `executemany` insert: consecutive autoincrement ids
starting at `start`, one row per payload line, all under `bucket`. -/
def appendEntries (start : Nat) (bucket : String) : List String → List SpillEntry
  | [] => []
  | lp :: rest => ⟨start, bucket, lp⟩ :: appendEntries (start + 1) bucket rest

/-- The spill append `db_enqueue_lines(bucket, lines)`: returns unchanged on an
empty line list, otherwise inserts one row per line with fresh increasing ids. -/
def db_enqueue_lines (s : Store) (bucket : String) (lines : List String) : Store :=
  if lines.isEmpty then s
  else ⟨s.entries ++ appendEntries s.next_id bucket lines, s.next_id + lines.length⟩

/-- Rows ordered by id ascending, mirroring `ORDER BY id ASC`. -/
def sortEntries (l : List SpillEntry) : List SpillEntry :=
  List.insertionSort (fun a b => a.id ≤ b.id) l

/-- The spill dequeue `db_dequeue_lines(limit)`:
`SELECT id, bucket, lp FROM lp_queue ORDER BY id ASC LIMIT ?`. -/
def db_dequeue_lines (s : Store) (limit : Nat) : List SpillEntry :=
  (sortEntries s.entries).take limit

/-- The spill delete `db_delete_ids(ids)`:
`DELETE FROM lp_queue WHERE id IN (...)`. -/
def db_delete_ids (s : Store) (ids : List Nat) : Store :=
  ⟨s.entries.filter (fun e => decide (e.id ∉ ids)), s.next_id⟩

/-- Well-formedness maintained by the sqlite schema: every stored id is below
the next autoincrement id, and ids are pairwise distinct. -/
def SpillWF (s : Store) : Prop :=
  (∀ e ∈ s.entries, e.id < s.next_id) ∧ (s.entries.map SpillEntry.id).Nodup

instance (s : Store) : Decidable (SpillWF s) := by
  unfold SpillWF; infer_instance

/-- An operation on the spill store, for stating trace properties: either an
`db_enqueue_lines` append or a `db_delete_ids` delete. -/
inductive SpillOp where
  | append (bucket : String) (lines : List String)
  | remove (ids : List Nat)

/-- Applies one spill-store operation. -/
def applySpillOp (s : Store) : SpillOp → Store
  | .append b ls => db_enqueue_lines s b ls
  | .remove ids => db_delete_ids s ids

/-- Applies a sequence of spill-store operations from left to right. -/
def applySpillOps (s : Store) (ops : List SpillOp) : Store :=
  ops.foldl applySpillOp s

/-- Insertion-order grouping of replayed rows,
`by_bucket.setdefault(bucket, []).append(lp)`. -/
def addToGroup : List (String × List String) → String → String → List (String × List String)
  | [], b, lp => [(b, [lp])]
  | (b', ls) :: rest, b, lp =>
    if b' = b then (b', ls ++ [lp]) :: rest else (b', ls) :: addToGroup rest b lp

/-- Grouping of a dequeued batch by destination bucket, as in `replay_worker`. -/
def groupByBucket (rows : List SpillEntry) : List (String × List String) :=
  rows.foldl (fun g e => addToGroup g e.bucket e.lp) []

/-- One cycle of `replay_worker`: dequeue up to `REPLAY_BATCH_LINES` rows; if
none, do nothing; otherwise group them by bucket (each group is submitted to
the asynchronous sink) and delete all dequeued ids regardless of the
submission outcome. Returns the new store and the submitted groups. -/
def replay_cycle (s : Store) : Store × List (String × List String) :=
  let rows := db_dequeue_lines s REPLAY_BATCH_LINES
  if rows.isEmpty then (s, [])
  else
    let ids := rows.map SpillEntry.id
    let groups := groupByBucket rows
    (db_delete_ids s ids, groups)

/-- The sink-adapter failure callback `error_cb(conf, data, exception)`. The
callback receives the submitted batch as one newline-joined payload; since
line-protocol lines never contain a newline, `payload.splitlines()` is modelled
as the identity on the batch's line list, after which blank lines are filtered
out as in the source. `conf_bucket` models `conf.get("bucket") if
isinstance(conf, dict) else None`; a missing or empty (falsy) bucket falls
back to `RAW_BUCKET`. A line is kept when `ln.strip()` is truthy, i.e. when
some character of the line is not whitespace; the kept lines are persisted via
`db_enqueue_lines`. -/
def error_cb (conf_bucket : Option String) (data_lines : List String) (store : Store) : Store :=
  let lines := data_lines.filter (fun ln => ln.data.any (fun c => !c.isWhitespace))
  if lines.isEmpty then store
  else
    let bucket :=
      match conf_bucket with
      | some b => if b = "" then RAW_BUCKET else b
      | none => RAW_BUCKET
    db_enqueue_lines store bucket lines

/-- Shared mutable state touched by the enqueue gateway: the bounded in-memory
event queue, the downsample accumulator and the spill store. -/
structure SysState where
  queue : List Event
  ds : DsCounts
  store : Store
deriving Repr

/-- The enqueue gateway `enqueue_event(pulse_type)` at timestamp `ts_ns`:
`put_nowait` succeeds exactly when the queue is below capacity; on
`queue.Full` the event is spilled to the raw bucket and the downsample
accumulator is updated synchronously. -/
def enqueue_event (st : SysState) (pulse_type : String) (ts_ns : Int) : SysState :=
  if st.queue.length < EVENT_Q_MAX then
    { st with queue := st.queue ++ [⟨pulse_type, ts_ns⟩] }
  else
    { st with
      store := db_enqueue_lines st.store RAW_BUCKET [make_raw_lp pulse_type ts_ns],
      ds := record_downsample st.ds pulse_type ts_ns }

/-- The ingestion worker's handling of one dequeued event (`event_worker`
lines 369-375): serialise and append to the open raw batch, update the
accumulator, and submit-and-clear when the batch reaches 2000 lines. Returns
the new batch, the new accumulator and the submitted batches (empty or one). -/
def worker_handle_event (batch : List String) (ds : DsCounts) (e : Event) :
    List String × DsCounts × List (List String) :=
  let batch' := batch ++ [make_raw_lp e.pulse_type e.ts_ns]
  let ds' := record_downsample ds e.pulse_type e.ts_ns
  if batch'.length ≥ 2000 then ([], ds', [batch']) else (batch', ds', [])

/-- Result of the post-stop drain loop of `event_worker`: batches submitted
inside the loop, the open batch at loop exit, and the accumulator. -/
structure DrainRes where
  subs : List (List String)
  batch : List String
  ds : DsCounts

/-- The post-stop drain loop of `event_worker`: repeated `get_nowait` until the
queue is empty, appending each event's raw line to the batch, recording it in
the accumulator, and submitting-and-clearing the batch at 2000 lines. -/
def drainEvents : List Event → List String → DsCounts → DrainRes
  | [], b, ds => ⟨[], b, ds⟩
  | e :: rest, b, ds =>
    let b' := b ++ [make_raw_lp e.pulse_type e.ts_ns]
    let ds' := record_downsample ds e.pulse_type e.ts_ns
    if b'.length ≥ 2000 then
      let r := drainEvents rest [] ds'
      ⟨b' :: r.subs, r.batch, r.ds⟩
    else drainEvents rest b' ds'

/-- Result of the shutdown sequence: all raw batches submitted, the
accumulator left behind, and the aggregate records emitted by the final
flush. -/
structure ShutdownResult where
  submitted : List (List String)
  ds : DsCounts
  agg : List AggregateRecord

/-- The shutdown tail of `event_worker` (after `stop_evt` is set): drain the
queue, submit the remaining non-empty batch, then call
`flush_completed_downsample_windows(int(time.time()))` — the ordinary flush
with its grace-period cutoff. -/
def shutdown_drain (q : List Event) (batch0 : List String) (ds0 : DsCounts) (now_s : Int) :
    ShutdownResult :=
  let r := drainEvents q batch0 ds0
  let subs := if r.batch.isEmpty then r.subs else r.subs ++ [r.batch]
  let f := flush_completed_downsample_windows r.ds now_s
  ⟨subs, f.1, f.2⟩

instance : IsTotal SpillEntry (fun a b => a.id ≤ b.id) :=
  ⟨fun a b => Nat.le_total a.id b.id⟩

instance : IsTrans SpillEntry (fun a b => a.id ≤ b.id) :=
  ⟨fun _ _ _ hab hbc => Nat.le_trans hab hbc⟩

example :
    db_dequeue_lines (db_enqueue_lines ⟨[], 0⟩ "PowerLogger_raw" ["a", "b"]) 1
      = [⟨0, "PowerLogger_raw", "a"⟩] := by decide

example :
    (replay_cycle (db_enqueue_lines ⟨[], 0⟩ "PowerLogger_raw" ["a", "b"])).1.entries = [] := by
  decide

example :
    (shutdown_drain [⟨"Import", 65000000000⟩] [] [] 70).ds = [(60, [("Import", 1)])] := by
  decide

theorem mem_dequeue_sub {s : Store} {limit : Nat} {e : SpillEntry}
    (h : e ∈ db_dequeue_lines s limit) : e ∈ s.entries := by
  unfold db_dequeue_lines sortEntries at h
  exact (List.mem_insertionSort _).mp (List.mem_of_mem_take h)

theorem addToGroup_mem_preserve (g : List (String × List String)) (b lp b' x : String)
    (h : ∃ ls, (b', ls) ∈ g ∧ x ∈ ls) :
    ∃ ls, (b', ls) ∈ addToGroup g b lp ∧ x ∈ ls := by
  induction g with
  | nil => simp at h
  | cons q rest ih =>
    obtain ⟨bq, lq⟩ := q
    obtain ⟨ls, hmem, hx⟩ := h
    by_cases hb : bq = b
    · subst hb
      rcases List.mem_cons.mp hmem with hhd | htl
      · injection hhd with h1 h2
        subst h1
        refine ⟨lq ++ [lp], ?_, List.mem_append_left _ (h2 ▸ hx)⟩
        simp [addToGroup]
      · refine ⟨ls, ?_, hx⟩
        simp only [addToGroup, if_pos rfl]
        exact List.mem_cons_of_mem _ htl
    · rcases List.mem_cons.mp hmem with hhd | htl
      · refine ⟨ls, ?_, hx⟩
        simp only [addToGroup, if_neg hb]
        exact hhd ▸ List.mem_cons_self _ _
      · obtain ⟨ls', hm', hx'⟩ := ih ⟨ls, htl, hx⟩
        refine ⟨ls', ?_, hx'⟩
        simp only [addToGroup, if_neg hb]
        exact List.mem_cons_of_mem _ hm'

theorem addToGroup_mem_self (g : List (String × List String)) (b lp : String) :
    ∃ ls, (b, ls) ∈ addToGroup g b lp ∧ lp ∈ ls := by
  induction g with
  | nil =>
    refine ⟨[lp], ?_, List.mem_singleton_self _⟩
    simp [addToGroup]
  | cons q rest ih =>
    obtain ⟨bq, lq⟩ := q
    by_cases hb : bq = b
    · subst hb
      refine ⟨lq ++ [lp], ?_, List.mem_append_right _ (List.mem_singleton_self _)⟩
      simp only [addToGroup, if_pos rfl]
      exact List.mem_cons_self _ _
    · obtain ⟨ls, hm, hx⟩ := ih
      refine ⟨ls, ?_, hx⟩
      simp only [addToGroup, if_neg hb]
      exact List.mem_cons_of_mem _ hm

theorem foldl_group_preserve (rows : List SpillEntry) :
    ∀ (g : List (String × List String)) (b x : String),
      (∃ ls, (b, ls) ∈ g ∧ x ∈ ls) →
      ∃ ls, (b, ls) ∈ rows.foldl (fun g e => addToGroup g e.bucket e.lp) g ∧ x ∈ ls := by
  induction rows with
  | nil => intro g b x h; simpa using h
  | cons r rest ih =>
    intro g b x h
    simp only [List.foldl_cons]
    exact ih _ b x (addToGroup_mem_preserve g r.bucket r.lp b x h)

theorem groupByBucket_mem (rows : List SpillEntry) :
    ∀ (g : List (String × List String)) (e : SpillEntry), e ∈ rows →
      ∃ ls, (e.bucket, ls) ∈ rows.foldl (fun g e => addToGroup g e.bucket e.lp) g ∧ e.lp ∈ ls := by
  induction rows with
  | nil => intro g e h; simp at h
  | cons r rest ih =>
    intro g e h
    simp only [List.foldl_cons]
    rcases List.mem_cons.mp h with hhd | htl
    · subst hhd
      exact foldl_group_preserve rest _ _ _ (addToGroup_mem_self g e.bucket e.lp)
    · exact ih _ e htl

theorem dequeue_not_isEmpty_of_mem {s : Store} {limit : Nat} {e : SpillEntry}
    (he : e ∈ db_dequeue_lines s limit) : ¬ (db_dequeue_lines s limit).isEmpty = true := by
  intro hemp
  rw [List.isEmpty_iff] at hemp
  rw [hemp] at he
  simp at he

/-- C6: a replay cycle dequeues at most `REPLAY_BATCH_LINES` rows, every
dequeued row's payload appears in the group submitted for its destination
bucket, and after the cycle no dequeued id remains in the spill store. -/
theorem replay_cycle_drains (s : Store) :
    (db_dequeue_lines s REPLAY_BATCH_LINES).length ≤ REPLAY_BATCH_LINES ∧
    (∀ e ∈ db_dequeue_lines s REPLAY_BATCH_LINES,
      ∃ ls, (e.bucket, ls) ∈ (replay_cycle s).2 ∧ e.lp ∈ ls) ∧
    (∀ e ∈ db_dequeue_lines s REPLAY_BATCH_LINES,
      ∀ f ∈ (replay_cycle s).1.entries, f.id ≠ e.id) := by
  refine ⟨?_, ?_, ?_⟩
  · unfold db_dequeue_lines
    exact List.length_take_le _ _
  · intro e he
    have hne := dequeue_not_isEmpty_of_mem he
    simp only [replay_cycle, if_neg hne]
    exact groupByBucket_mem _ _ e he
  · intro e he f hf
    have hne := dequeue_not_isEmpty_of_mem he
    simp only [replay_cycle, if_neg hne] at hf
    unfold db_delete_ids at hf
    simp only [List.mem_filter, decide_eq_true_iff] at hf
    intro heq
    exact hf.2 (heq ▸ List.mem_map_of_mem SpillEntry.id he)

/-- C7: deleting the same id set twice leaves the store exactly as deleting it
once, and deleting ids that are absent from the store is a no-op. -/
theorem delete_ids_idempotent (s : Store) (ids : List Nat) :
    db_delete_ids (db_delete_ids s ids) ids = db_delete_ids s ids ∧
    ((∀ i ∈ ids, ∀ e ∈ s.entries, e.id ≠ i) → db_delete_ids s ids = s) := by
  constructor
  · unfold db_delete_ids
    simp [List.filter_filter]
  · intro h
    unfold db_delete_ids
    have hself : s.entries.filter (fun e => decide (e.id ∉ ids)) = s.entries := by
      apply List.filter_eq_self.mpr
      intro e he
      simp only [decide_eq_true_iff]
      intro hmem
      exact h e.id hmem e he rfl
    rw [hself]

/-- Witness for `delete_ids_idempotent` at a concrete store and id set. -/
theorem delete_ids_idempotent_witness :
    db_delete_ids (db_delete_ids ⟨[⟨0, "b", "x"⟩], 1⟩ [3, 4]) [3, 4]
        = db_delete_ids ⟨[⟨0, "b", "x"⟩], 1⟩ [3, 4] ∧
      ((∀ i ∈ [3, 4], ∀ e ∈ (⟨[⟨0, "b", "x"⟩], 1⟩ : Store).entries, e.id ≠ i) →
        db_delete_ids ⟨[⟨0, "b", "x"⟩], 1⟩ [3, 4] = ⟨[⟨0, "b", "x"⟩], 1⟩) :=
  delete_ids_idempotent ⟨[⟨0, "b", "x"⟩], 1⟩ [3, 4]

theorem lookupCat_bumpCat (m : List (String × Nat)) (k : String) :
    lookupCat (bumpCat m k) k = lookupCat m k + 1 := by
  induction m with
  | nil => simp [bumpCat, lookupCat]
  | cons p rest ih =>
    obtain ⟨k', v⟩ := p
    by_cases hk : k' = k
    · subst hk
      simp [bumpCat, lookupCat]
    · simp only [bumpCat, if_neg hk, lookupCat]
      exact ih

theorem lookupWin_bumpWindow_self (ds : DsCounts) (w : Int) (k : String) :
    lookupWin (bumpWindow ds w k) w = some (bumpCat ((lookupWin ds w).getD []) k) := by
  induction ds with
  | nil => simp [bumpWindow, lookupWin, bumpCat]
  | cons p rest ih =>
    obtain ⟨w', m⟩ := p
    by_cases hw : w' = w
    · subst hw
      simp [bumpWindow, lookupWin]
    · simp [bumpWindow, lookupWin, hw, ih]

theorem dsCount_bumpWindow (ds : DsCounts) (w : Int) (k : String) :
    dsCount (bumpWindow ds w k) w k = dsCount ds w k + 1 := by
  unfold dsCount
  rw [lookupWin_bumpWindow_self]
  cases hlw : lookupWin ds w with
  | none => simp [hlw, bumpCat, lookupCat]
  | some m => simp [lookupCat_bumpCat]

theorem dsCount_record (ds : DsCounts) (pt : String) (ts : Int) :
    dsCount (record_downsample ds pt ts) (windowOf ts) pt
      = dsCount ds (windowOf ts) pt + 1 := by
  unfold record_downsample
  exact dsCount_bumpWindow ds (windowOf ts) pt

/-- C5: when the bounded event queue is at capacity, the gateway leaves the
queue untouched, appends exactly one raw-destination spill entry holding the
serialised event, and increments the accumulator bucket for the event's
category and window. -/
theorem enqueue_event_overflow (st : SysState) (pt : String) (ts : Int)
    (h : EVENT_Q_MAX ≤ st.queue.length) :
    (enqueue_event st pt ts).queue = st.queue ∧
    (enqueue_event st pt ts).store.entries
      = st.store.entries ++ [⟨st.store.next_id, RAW_BUCKET, make_raw_lp pt ts⟩] ∧
    (enqueue_event st pt ts).store.next_id = st.store.next_id + 1 ∧
    dsCount (enqueue_event st pt ts).ds (windowOf ts) pt
      = dsCount st.ds (windowOf ts) pt + 1 := by
  have hfull : ¬ st.queue.length < EVENT_Q_MAX := Nat.not_lt.mpr h
  refine ⟨?_, ?_, ?_, ?_⟩ <;>
    simp only [enqueue_event, if_neg hfull, db_enqueue_lines, appendEntries,
      List.isEmpty_cons, List.length_singleton] <;>
    first
      | rfl
      | exact dsCount_record st.ds pt ts

/-- Witness for `enqueue_event_overflow` on a queue filled to capacity. -/
theorem enqueue_event_overflow_witness :
    (let st : SysState := ⟨List.replicate EVENT_Q_MAX ⟨"Import", 0⟩, [], ⟨[], 0⟩⟩
     (enqueue_event st "Import" 0).queue = st.queue ∧
     (enqueue_event st "Import" 0).store.entries
       = st.store.entries ++ [⟨st.store.next_id, RAW_BUCKET, make_raw_lp "Import" 0⟩] ∧
     (enqueue_event st "Import" 0).store.next_id = st.store.next_id + 1 ∧
     dsCount (enqueue_event st "Import" 0).ds (windowOf 0) "Import"
       = dsCount st.ds (windowOf 0) "Import" + 1) :=
  enqueue_event_overflow ⟨List.replicate EVENT_Q_MAX ⟨"Import", 0⟩, [], ⟨[], 0⟩⟩ "Import" 0
    (by simp)

/-- C10: when the bounded event queue has spare capacity, the gateway only
appends the event to the queue — the spill store and the accumulator are left
untouched — and the accumulator bucket for the event is incremented (only)
when the ingestion worker later dequeues and handles the event. -/
theorem enqueue_event_fast_path (st : SysState) (pt : String) (ts : Int)
    (h : st.queue.length < EVENT_Q_MAX) :
    enqueue_event st pt ts = { st with queue := st.queue ++ [⟨pt, ts⟩] } ∧
    (∀ batch : List String,
      dsCount (worker_handle_event batch st.ds ⟨pt, ts⟩).2.1 (windowOf ts) pt
        = dsCount st.ds (windowOf ts) pt + 1) := by
  constructor
  · simp only [enqueue_event, if_pos h]
  · intro batch
    simp only [worker_handle_event]
    split <;> exact dsCount_record st.ds pt ts

/-- Witness for `enqueue_event_fast_path` on an empty queue. -/
theorem enqueue_event_fast_path_witness :
    (enqueue_event ⟨[], [], ⟨[], 0⟩⟩ "Import" 0
        = { queue := [⟨"Import", 0⟩], ds := [], store := ⟨[], 0⟩ } ∧
      (∀ batch : List String,
        dsCount (worker_handle_event batch [] ⟨"Import", 0⟩).2.1 (windowOf 0) "Import"
          = dsCount ([] : DsCounts) (windowOf 0) "Import" + 1)) :=
  enqueue_event_fast_path ⟨[], [], ⟨[], 0⟩⟩ "Import" 0 (by decide)

/-- C3: when the exhausted-failure callback reports a (non-empty) destination
bucket and a batch of non-blank line-protocol lines, it persists exactly those
lines to the spill store under that same destination. -/
theorem error_cb_persists (store : Store) (dest : String) (batch : List String)
    (hd : dest ≠ "")
    (hb : ∀ ln ∈ batch, ln.data.any (fun c => !c.isWhitespace) = true) :
    error_cb (some dest) batch store = db_enqueue_lines store dest batch ∧
    (error_cb (some dest) batch store).entries
      = store.entries ++ appendEntries store.next_id dest batch := by
  have hfilter : batch.filter (fun ln => ln.data.any (fun c => !c.isWhitespace)) = batch :=
    List.filter_eq_self.mpr hb
  have hmain : error_cb (some dest) batch store = db_enqueue_lines store dest batch := by
    unfold error_cb
    rw [hfilter]
    by_cases hemp : batch.isEmpty
    · rw [if_pos hemp]
      unfold db_enqueue_lines
      rw [if_pos hemp]
    · rw [if_neg hemp]
      show db_enqueue_lines store (if dest = "" then RAW_BUCKET else dest) batch
          = db_enqueue_lines store dest batch
      rw [if_neg hd]
  refine ⟨hmain, ?_⟩
  rw [hmain]
  unfold db_enqueue_lines
  by_cases hemp : batch.isEmpty
  · rw [if_pos hemp, List.isEmpty_iff.mp hemp]
    simp [appendEntries]
  · rw [if_neg hemp]

/-- Witness for `error_cb_persists` at a concrete batch and destination. -/
theorem error_cb_persists_witness :
    error_cb (some "PowerLogger_1m") ["m,PulseType=Import,window=1m PulseCount=1i 0"] ⟨[], 0⟩
        = db_enqueue_lines ⟨[], 0⟩ "PowerLogger_1m"
            ["m,PulseType=Import,window=1m PulseCount=1i 0"] ∧
      (error_cb (some "PowerLogger_1m") ["m,PulseType=Import,window=1m PulseCount=1i 0"]
          ⟨[], 0⟩).entries
        = (⟨[], 0⟩ : Store).entries
            ++ appendEntries 0 "PowerLogger_1m" ["m,PulseType=Import,window=1m PulseCount=1i 0"] :=
  error_cb_persists ⟨[], 0⟩ "PowerLogger_1m" ["m,PulseType=Import,window=1m PulseCount=1i 0"]
    (by decide) (by decide)

/-- C1 fails on the code: `ds_counts` is a `defaultdict`, so after window 0 is
flushed (and its aggregate emitted), a later `record_downsample` whose
timestamp falls in window 0 recreates the bucket, and a second flush emits
window 0's aggregate again — the same window's aggregate is emitted twice. -/
theorem record_after_flush_recreates :
    (flush_completed_downsample_windows (record_downsample [] "Import" 10000000000) 100).2
      = [⟨0, "Import", 1⟩] ∧
    record_downsample
        (flush_completed_downsample_windows (record_downsample [] "Import" 10000000000) 100).1
        "Import" 20000000000
      = [(0, [("Import", 1)])] ∧
    (flush_completed_downsample_windows
        (record_downsample
          (flush_completed_downsample_windows
            (record_downsample [] "Import" 10000000000) 100).1
          "Import" 20000000000) 200).2
      = [⟨0, "Import", 1⟩] := by decide

/-- C1 amended: once `flush_completed` has removed a window, a later
`record_downsample` for a timestamp in that window recreates the window's
bucket with count 1 for the event's category (so the window's aggregate can be
emitted again by a later flush). -/
theorem record_recreates_flushed_window (ds : DsCounts) (cat : String) (ts : Int)
    (h : lookupWin ds (windowOf ts) = none) :
    lookupWin (record_downsample ds cat ts) (windowOf ts) = some [(cat, 1)] := by
  unfold record_downsample
  induction ds with
  | nil => simp [bumpWindow, lookupWin]
  | cons p rest ih =>
    obtain ⟨w', m⟩ := p
    by_cases hw : w' = windowOf ts
    · rw [lookupWin, if_pos hw] at h
      exact absurd h (by simp)
    · rw [lookupWin, if_neg hw] at h
      rw [bumpWindow, if_neg hw, lookupWin, if_neg hw]
      exact ih h

/-- Witness for `record_recreates_flushed_window` on the empty accumulator. -/
theorem record_recreates_flushed_window_witness :
    lookupWin ([] : DsCounts) (windowOf 0) = none ∧
      lookupWin (record_downsample [] "Import" 0) (windowOf 0) = some [("Import", 1)] :=
  ⟨by decide, record_recreates_flushed_window [] "Import" 0 (by decide)⟩

/-- C2 fails on the code: the shutdown tail of `event_worker` ends with the
ordinary `flush_completed_downsample_windows(int(time.time()))`, which keeps
the grace-period cutoff. Draining one queued event at t = 65 s and shutting
down at t = 70 s leaves window 60 (not complete before `70 - 2`) pending in
the accumulator with nothing emitted for it. -/
theorem shutdown_leaves_pending_window :
    (shutdown_drain [⟨"Import", 65000000000⟩] [] [] 70).ds = [(60, [("Import", 1)])] ∧
    (shutdown_drain [⟨"Import", 65000000000⟩] [] [] 70).agg = [] := by decide

theorem drainEvents_spec (q : List Event) :
    ∀ (b : List String) (ds : DsCounts),
      (drainEvents q b ds).subs.flatten ++ (drainEvents q b ds).batch
          = b ++ q.map (fun e => make_raw_lp e.pulse_type e.ts_ns) ∧
        (drainEvents q b ds).ds
          = q.foldl (fun d e => record_downsample d e.pulse_type e.ts_ns) ds := by
  induction q with
  | nil => intro b ds; simp [drainEvents]
  | cons e rest ih =>
    intro b ds
    rw [drainEvents]
    simp only [List.map_cons, List.foldl_cons]
    split
    · obtain ⟨ih1, ih2⟩ := ih [] (record_downsample ds e.pulse_type e.ts_ns)
      constructor
      · simp only [List.flatten_cons, List.append_assoc, ih1]
        simp
      · exact ih2
    · obtain ⟨ih1, ih2⟩ := ih (b ++ [make_raw_lp e.pulse_type e.ts_ns])
        (record_downsample ds e.pulse_type e.ts_ns)
      constructor
      · rw [ih1]
        simp
      · exact ih2

/-- C2 amended: on stop, the worker drains every queued event through the
batch/submit logic — the submitted raw batches carry the open batch plus one
serialised line per queued event, in order — and then runs the ordinary
grace-period flush at the current time; windows not complete before
`now - grace` remain in the accumulator. -/
theorem shutdown_drain_spec (q : List Event) (batch0 : List String) (ds0 : DsCounts)
    (now_s : Int) :
    (shutdown_drain q batch0 ds0 now_s).submitted.flatten
        = batch0 ++ q.map (fun e => make_raw_lp e.pulse_type e.ts_ns) ∧
      (shutdown_drain q batch0 ds0 now_s).ds
        = (flush_completed_downsample_windows
            (q.foldl (fun d e => record_downsample d e.pulse_type e.ts_ns) ds0) now_s).1 ∧
      (shutdown_drain q batch0 ds0 now_s).agg
        = (flush_completed_downsample_windows
            (q.foldl (fun d e => record_downsample d e.pulse_type e.ts_ns) ds0) now_s).2 := by
  obtain ⟨h1, h2⟩ := drainEvents_spec q batch0 ds0
  simp only [shutdown_drain]
  refine ⟨?_, by rw [h2], by rw [h2]⟩
  by_cases hemp : (drainEvents q batch0 ds0).batch.isEmpty
  · rw [if_pos hemp]
    rw [List.isEmpty_iff.mp hemp, List.append_nil] at h1
    exact h1
  · rw [if_neg hemp]
    rw [List.flatten_append]
    simpa using h1

/-- Witness for `replay_cycle_drains` on a concrete one-row store. -/
theorem replay_cycle_drains_witness :
    (db_dequeue_lines ⟨[⟨0, "b", "x"⟩], 1⟩ REPLAY_BATCH_LINES).length ≤ REPLAY_BATCH_LINES ∧
      (∀ e ∈ db_dequeue_lines ⟨[⟨0, "b", "x"⟩], 1⟩ REPLAY_BATCH_LINES,
        ∃ ls, (e.bucket, ls) ∈ (replay_cycle ⟨[⟨0, "b", "x"⟩], 1⟩).2 ∧ e.lp ∈ ls) ∧
      (∀ e ∈ db_dequeue_lines ⟨[⟨0, "b", "x"⟩], 1⟩ REPLAY_BATCH_LINES,
        ∀ f ∈ (replay_cycle ⟨[⟨0, "b", "x"⟩], 1⟩).1.entries, f.id ≠ e.id) :=
  replay_cycle_drains ⟨[⟨0, "b", "x"⟩], 1⟩

/-- Witness for `shutdown_drain_spec` at a concrete queue and shutdown time. -/
theorem shutdown_drain_spec_witness :
    (shutdown_drain [⟨"Import", 65000000000⟩] [] [] 70).submitted.flatten
        = [] ++ [⟨"Import", 65000000000⟩].map (fun e : Event => make_raw_lp e.pulse_type e.ts_ns) ∧
      (shutdown_drain [⟨"Import", 65000000000⟩] [] [] 70).ds
        = (flush_completed_downsample_windows
            ([⟨"Import", 65000000000⟩].foldl
              (fun d (e : Event) => record_downsample d e.pulse_type e.ts_ns) []) 70).1 ∧
      (shutdown_drain [⟨"Import", 65000000000⟩] [] [] 70).agg
        = (flush_completed_downsample_windows
            ([⟨"Import", 65000000000⟩].foldl
              (fun d (e : Event) => record_downsample d e.pulse_type e.ts_ns) []) 70).2 :=
  shutdown_drain_spec [⟨"Import", 65000000000⟩] [] [] 70

theorem foldl_eraseWindow (L : DsCounts) :
    ∀ ds : DsCounts,
      L.foldl (fun acc p => eraseWindow acc p.1) ds
        = ds.filter (fun p => decide (p.1 ∉ L.map Prod.fst)) := by
  induction L with
  | nil => intro ds; simp
  | cons a L ih =>
    intro ds
    simp only [List.foldl_cons]
    rw [ih]
    unfold eraseWindow
    rw [List.filter_filter]
    apply List.filter_congr
    intro x _
    rw [Bool.eq_iff_iff]
    simp only [List.map_cons, List.mem_cons, not_or, Bool.and_eq_true, decide_eq_true_iff]
    tauto

theorem mem_flushKeys_iff (ds : DsCounts) (cb : Int) (p : Int × List (String × Nat))
    (hp : p ∈ ds) :
    p.1 ∈ (sortByWindow (ds.filter (fun q => decide (q.1 < cb)))).map Prod.fst ↔ p.1 < cb := by
  unfold sortByWindow
  constructor
  · intro h
    obtain ⟨q, hq, hqe⟩ := List.mem_map.mp h
    have hq' : q ∈ ds.filter (fun q => decide (q.1 < cb)) := (List.mem_insertionSort _).mp hq
    have hlt := (List.mem_filter.mp hq').2
    rw [decide_eq_true_iff] at hlt
    exact hqe ▸ hlt
  · intro h
    apply List.mem_map.mpr
    refine ⟨p, ?_, rfl⟩
    exact (List.mem_insertionSort _).mpr (List.mem_filter.mpr ⟨hp, decide_eq_true h⟩)

theorem flush_state (ds : DsCounts) (now_s : Int) :
    (flush_completed_downsample_windows ds now_s).1
      = ds.filter (fun p => decide (¬ p.1 < completeBefore now_s)) := by
  simp only [flush_completed_downsample_windows]
  rw [foldl_eraseWindow]
  apply List.filter_congr
  intro p hp
  rw [Bool.eq_iff_iff]
  simp only [decide_eq_true_iff]
  rw [mem_flushKeys_iff ds (completeBefore now_s) p hp]

theorem flush_out_mem (ds : DsCounts) (now_s : Int) (r : AggregateRecord) :
    r ∈ (flush_completed_downsample_windows ds now_s).2 ↔
      r.window < completeBefore now_s ∧
        ∃ m, (r.window, m) ∈ ds ∧ (r.category, r.count) ∈ m := by
  simp only [flush_completed_downsample_windows, sortByWindow, List.mem_flatten, List.mem_map]
  constructor
  · rintro ⟨l, ⟨p, hp, rfl⟩, hr⟩
    obtain ⟨q, hq, hqe⟩ := List.mem_map.mp hr
    have hpf : p ∈ ds.filter (fun q => decide (q.1 < completeBefore now_s)) :=
      (List.mem_insertionSort _).mp hp
    obtain ⟨hpd, hplt⟩ := List.mem_filter.mp hpf
    rw [decide_eq_true_iff] at hplt
    subst hqe
    exact ⟨hplt, p.2, hpd, hq⟩
  · rintro ⟨hlt, m, hm, hcat⟩
    refine ⟨m.map (fun q => AggregateRecord.mk r.window q.1 q.2), ⟨(r.window, m), ?_, rfl⟩, ?_⟩
    · exact (List.mem_insertionSort _).mpr (List.mem_filter.mpr ⟨hm, decide_eq_true hlt⟩)
    · exact List.mem_map.mpr ⟨(r.category, r.count), hcat, rfl⟩

/-- C4: the flush removes exactly the windows with start below
`floor((now - grace) / window) * window`, the emitted records are exactly one
per (flushed window, present category) pair with value equal to that
category's count (so empty windows emit nothing), and in the concrete
scenario with events at t = 10 s and t = 65 s of the same category, a flush at
t = 63 emits only the window-0 record and leaves window 60 unflushed. -/
theorem flush_removes_and_emits (ds : DsCounts) (now_s : Int) :
    (flush_completed_downsample_windows ds now_s).1
        = ds.filter (fun p => decide (¬ p.1 < completeBefore now_s)) ∧
      (∀ r : AggregateRecord,
        r ∈ (flush_completed_downsample_windows ds now_s).2 ↔
          r.window < completeBefore now_s ∧
            ∃ m, (r.window, m) ∈ ds ∧ (r.category, r.count) ∈ m) ∧
      flush_completed_downsample_windows
          (record_downsample (record_downsample [] "Import" 10000000000) "Import" 65000000000)
          63
        = ([(60, [("Import", 1)])], [⟨0, "Import", 1⟩]) :=
  ⟨flush_state ds now_s, fun r => flush_out_mem ds now_s r, by decide⟩

/-- Witness for `flush_removes_and_emits` at a concrete accumulator state. -/
theorem flush_removes_and_emits_witness :
    (flush_completed_downsample_windows [(0, [("Import", 2)])] 100).1
        = [(0, [("Import", 2)])].filter (fun p => decide (¬ p.1 < completeBefore 100)) ∧
      (∀ r : AggregateRecord,
        r ∈ (flush_completed_downsample_windows [(0, [("Import", 2)])] 100).2 ↔
          r.window < completeBefore 100 ∧
            ∃ m, (r.window, m) ∈ [(0, [("Import", 2)])] ∧ (r.category, r.count) ∈ m) ∧
      flush_completed_downsample_windows
          (record_downsample (record_downsample [] "Import" 10000000000) "Import" 65000000000)
          63
        = ([(60, [("Import", 1)])], [⟨0, "Import", 1⟩]) :=
  flush_removes_and_emits [(0, [("Import", 2)])] 100

theorem appendEntries_id_ge (ls : List String) :
    ∀ (start : Nat) (b : String) (f : SpillEntry),
      f ∈ appendEntries start b ls → start ≤ f.id := by
  induction ls with
  | nil => intro start b f h; simp [appendEntries] at h
  | cons lp rest ih =>
    intro start b f h
    simp only [appendEntries] at h
    rcases List.mem_cons.mp h with hhd | htl
    · subst hhd; exact Nat.le_refl _
    · exact Nat.le_trans (Nat.le_succ start) (ih (start + 1) b f htl)

theorem next_id_mono (op : SpillOp) (s : Store) : s.next_id ≤ (applySpillOp s op).next_id := by
  cases op with
  | append b ls =>
    simp only [applySpillOp, db_enqueue_lines]
    split
    · exact Nat.le_refl _
    · exact Nat.le_add_right _ _
  | remove ids => exact Nat.le_refl _

theorem spill_entry_stable (ops : List SpillOp) :
    ∀ (s : Store) (i : Nat) (b p : String),
      i < s.next_id →
      (∀ f ∈ s.entries, f.id = i → f.bucket = b ∧ f.lp = p) →
      i < (applySpillOps s ops).next_id ∧
        ∀ f ∈ (applySpillOps s ops).entries, f.id = i → f.bucket = b ∧ f.lp = p := by
  induction ops with
  | nil => intro s i b p h1 h2; exact ⟨h1, h2⟩
  | cons op rest ih =>
    intro s i b p h1 h2
    simp only [applySpillOps, List.foldl_cons]
    apply ih
    · exact Nat.lt_of_lt_of_le h1 (next_id_mono op s)
    · intro f hf hfid
      cases op with
      | append bk ls =>
        simp only [applySpillOp, db_enqueue_lines] at hf
        by_cases hemp : ls.isEmpty
        · rw [if_pos hemp] at hf
          exact h2 f hf hfid
        · rw [if_neg hemp] at hf
          rcases List.mem_append.mp hf with hold | hnew
          · exact h2 f hold hfid
          · have hge := appendEntries_id_ge ls s.next_id bk f hnew
            omega
      | remove ids =>
        simp only [applySpillOp, db_delete_ids] at hf
        exact h2 f (List.mem_filter.mp hf).1 hfid

/-- C8: a payload appended to the spill store keeps its destination and its
exact bytes: after any further sequence of appends and deletes, an entry
returned by `db_dequeue_lines` carrying the appended row's id still holds the
original destination bucket and the byte-identical payload line. -/
theorem spilled_payload_stable (s : Store) (dest payload : String) (ops : List SpillOp)
    (limit : Nat) (e : SpillEntry)
    (hwf : ∀ f ∈ s.entries, f.id < s.next_id)
    (hmem : e ∈ db_dequeue_lines (applySpillOps (db_enqueue_lines s dest [payload]) ops) limit)
    (hid : e.id = s.next_id) :
    e.bucket = dest ∧ e.lp = payload := by
  have hsub : e ∈ (applySpillOps (db_enqueue_lines s dest [payload]) ops).entries :=
    mem_dequeue_sub hmem
  have h1 : s.next_id < (db_enqueue_lines s dest [payload]).next_id := by
    simp [db_enqueue_lines]
  have h2 : ∀ f ∈ (db_enqueue_lines s dest [payload]).entries,
      f.id = s.next_id → f.bucket = dest ∧ f.lp = payload := by
    intro f hf hfid
    simp only [db_enqueue_lines] at hf
    rw [if_neg (by simp)] at hf
    rcases List.mem_append.mp hf with hold | hnew
    · exact absurd hfid (Nat.ne_of_lt (hwf f hold))
    · simp only [appendEntries] at hnew
      rcases List.mem_cons.mp hnew with hhd | h0
      · subst hhd; exact ⟨rfl, rfl⟩
      · simp at h0
  exact (spill_entry_stable ops (db_enqueue_lines s dest [payload]) s.next_id dest payload
    h1 h2).2 e hsub hid

/-- Witness for `spilled_payload_stable`: an append to the empty store whose
row is then dequeued unchanged. -/
theorem spilled_payload_stable_witness :
    (⟨0, "PowerLogger_raw", "x"⟩ : SpillEntry)
        ∈ db_dequeue_lines (applySpillOps (db_enqueue_lines ⟨[], 0⟩ "PowerLogger_raw" ["x"]) []) 1 ∧
      (⟨0, "PowerLogger_raw", "x"⟩ : SpillEntry).bucket = "PowerLogger_raw" ∧
      (⟨0, "PowerLogger_raw", "x"⟩ : SpillEntry).lp = "x" :=
  ⟨by decide,
    spilled_payload_stable ⟨[], 0⟩ "PowerLogger_raw" "x" [] 1 ⟨0, "PowerLogger_raw", "x"⟩
      (by decide) (by decide) rfl⟩

/-- C9: `db_dequeue_lines` returns at most `limit` rows; they are rows of the
store (ids, buckets and payloads unchanged), in strictly increasing id order,
and they are exactly the oldest: every returned row's id is smaller than the
id of every non-returned row. -/
theorem dequeue_batch_spec (s : Store) (limit : Nat) (hwf : SpillWF s) :
    (db_dequeue_lines s limit).length ≤ limit ∧
      (∀ e ∈ db_dequeue_lines s limit, e ∈ s.entries) ∧
      (db_dequeue_lines s limit).Pairwise (fun a b => a.id < b.id) ∧
      ∀ e ∈ db_dequeue_lines s limit, ∀ f ∈ s.entries,
        f ∉ db_dequeue_lines s limit → e.id < f.id := by
  obtain ⟨hlt, hnd⟩ := hwf
  have hperm : List.Perm (sortEntries s.entries) s.entries := List.perm_insertionSort _ _
  have hsorted : List.Pairwise (fun a b : SpillEntry => a.id ≤ b.id) (sortEntries s.entries) :=
    List.sorted_insertionSort (fun a b : SpillEntry => a.id ≤ b.id) s.entries
  have hmemtake : ∀ e ∈ db_dequeue_lines s limit, e ∈ s.entries := by
    intro e he
    exact hperm.mem_iff.mp (List.mem_of_mem_take he)
  have hinj : ∀ x ∈ s.entries, ∀ y ∈ s.entries, x.id = y.id → x = y :=
    List.inj_on_of_nodup_map hnd
  refine ⟨List.length_take_le _ _, hmemtake, ?_, ?_⟩
  · have hsub : List.Sublist (db_dequeue_lines s limit) (sortEntries s.entries) :=
      List.take_sublist _ _
    have htakele : (db_dequeue_lines s limit).Pairwise (fun a b : SpillEntry => a.id ≤ b.id) :=
      hsorted.sublist hsub
    have htakene : (db_dequeue_lines s limit).Pairwise (fun a b : SpillEntry => a.id ≠ b.id) := by
      have hmap : ((db_dequeue_lines s limit).map SpillEntry.id).Nodup := by
        have hslnd : ((sortEntries s.entries).map SpillEntry.id).Nodup :=
          ((hperm.map SpillEntry.id).nodup_iff).mpr hnd
        exact hslnd.sublist (hsub.map SpillEntry.id)
      rw [List.Nodup, List.pairwise_map] at hmap
      exact hmap
    exact (htakele.and htakene).imp (fun h => Nat.lt_of_le_of_ne h.1 h.2)
  · intro e he f hf hfn
    have hfsl : f ∈ sortEntries s.entries := hperm.mem_iff.mpr hf
    rw [← List.take_append_drop limit (sortEntries s.entries)] at hfsl
    have hfd : f ∈ (sortEntries s.entries).drop limit := by
      rcases List.mem_append.mp hfsl with h | h
      · exact absurd h hfn
      · exact h
    have hcross : e.id ≤ f.id := by
      rw [← List.take_append_drop limit (sortEntries s.entries)] at hsorted
      exact (List.pairwise_append.mp hsorted).2.2 e he f hfd
    have hne : e.id ≠ f.id := by
      intro heq
      exact hfn ((hinj e (hmemtake e he) f hf heq) ▸ he)
    exact Nat.lt_of_le_of_ne hcross hne

/-- Witness for `dequeue_batch_spec` on a concrete two-row store. -/
theorem dequeue_batch_spec_witness :
    SpillWF ⟨[⟨0, "b", "x"⟩, ⟨1, "b", "y"⟩], 2⟩ ∧
      ((db_dequeue_lines ⟨[⟨0, "b", "x"⟩, ⟨1, "b", "y"⟩], 2⟩ 1).length ≤ 1 ∧
        (∀ e ∈ db_dequeue_lines ⟨[⟨0, "b", "x"⟩, ⟨1, "b", "y"⟩], 2⟩ 1,
          e ∈ (⟨[⟨0, "b", "x"⟩, ⟨1, "b", "y"⟩], 2⟩ : Store).entries) ∧
        (db_dequeue_lines ⟨[⟨0, "b", "x"⟩, ⟨1, "b", "y"⟩], 2⟩ 1).Pairwise
          (fun a b => a.id < b.id) ∧
        ∀ e ∈ db_dequeue_lines ⟨[⟨0, "b", "x"⟩, ⟨1, "b", "y"⟩], 2⟩ 1,
          ∀ f ∈ (⟨[⟨0, "b", "x"⟩, ⟨1, "b", "y"⟩], 2⟩ : Store).entries,
            f ∉ db_dequeue_lines ⟨[⟨0, "b", "x"⟩, ⟨1, "b", "y"⟩], 2⟩ 1 → e.id < f.id) :=
  ⟨by decide, dequeue_batch_spec ⟨[⟨0, "b", "x"⟩, ⟨1, "b", "y"⟩], 2⟩ 1 (by decide)⟩

end MeterPulse
